import Mathlib

/-!
Shallow embedding of the streaming core of the Pankjsingh1028/kite repository:
the module-level state of `kitews.py` (quote cache, KiteTicker handle,
permanent subscription set), its functions (`on_ticks`, `on_connect`,
`start_websocket`, `stop_websocket`, `subscribe_to_tokens`, `get_live_quote`,
`get_all_live_quotes`, `clear_live_quotes`) and the ATM-window selection slice
of `plot_option_chain` in `kite1.py` (lines 897-972).

Modelling conventions:
- Python numbers (prices, timestamps) are modelled as exact rationals `ℚ`;
  instrument tokens as `ℕ`.
- Python dicts keyed by token are modelled as functions `ℕ → Option Quote`.
  Because `get_all_live_quotes` returns the dict *object* (not a copy), object
  identity matters: we model a minimal heap (`PyHeap`) of dict objects, the
  module-level name `live_quotes` being an index into it.  `clear_live_quotes`
  rebinds the name to a fresh empty dict (`live_quotes = {}`), while `on_ticks`
  mutates the dict currently bound, exactly as in the Python source.
- Calls into the external KiteTicker transport (`subscribe`, `unsubscribe`,
  `set_mode`, `stop`, `connect`) are recorded as a list of `TransportOp`;
  the transport's own subscription bookkeeping (`kws.subscriptions`) is a
  `Finset ℕ` updated by the issued subscribe/unsubscribe calls (success path of
  the `try/except` around `unsubscribe`).
-/

namespace Kite

/-- OHLC block carried inside a tick (`tick.get('ohlc')`). -/
structure Ohlc where
  open_price : Option ℚ
  high : Option ℚ
  low : Option ℚ
  close : Option ℚ
deriving DecidableEq, Repr

/-- Market-depth block carried inside a tick (`tick.get('depth')`):
buy and sell levels as (price, quantity) pairs. -/
structure Depth where
  buy : List (ℚ × ℕ)
  sell : List (ℚ × ℕ)
deriving DecidableEq, Repr

/-- A raw tick as delivered by the feed to `on_ticks`.  Every field is
optional: the Python code reads each with `tick.get(...)`, and
`instrument_token` may be missing (`none`), `None`, or `0` (both falsy). -/
structure RawTick where
  instrument_token : Option ℕ
  last_price : Option ℚ
  ohlc : Option Ohlc
  volume_traded : Option ℕ
  oi : Option ℕ
  depth : Option Depth
deriving DecidableEq, Repr

/-- The record stored in `live_quotes` by `on_ticks` (kitews.py lines 30-38). -/
structure Quote where
  instrument_token : ℕ
  last_price : Option ℚ
  ohlc : Option Ohlc
  volume : Option ℕ
  oi : Option ℕ
  depth : Option Depth
  timestamp : ℚ
deriving DecidableEq, Repr

/-- A Python dict mapping instrument token to the stored quote record. -/
def QuoteDict : Type := ℕ → Option Quote

/-- The empty dict `{}`. -/
def emptyDict : QuoteDict := fun _ => none

/-- Minimal heap of dict objects: `objs` are the allocated dicts (index =
object identity), `cur` is the object the module-level name `live_quotes`
is currently bound to. -/
structure PyHeap where
  objs : List QuoteDict
  cur : ℕ

/-- Dereference a dict object by identity (what a caller holding a reference
returned earlier observes). -/
def readRef (h : PyHeap) (r : ℕ) : QuoteDict := h.objs.getD r emptyDict

/-- The external KiteTicker instance: object identity, `is_connected()` flag,
and the transport's own subscription bookkeeping. -/
structure KwsInstance where
  id : ℕ
  connected : Bool
  subscriptions : Finset ℕ
deriving DecidableEq

/-- One call into the external transport, recorded rather than performed. -/
inductive TransportOp where
  | subscribe (tokens : Finset ℕ)
  | unsubscribe (tokens : Finset ℕ)
  | set_mode_full (tokens : Finset ℕ)
  | stop_instance (id : ℕ)
  | connect_attempt (id : ℕ)
deriving DecidableEq

/-- Module-level state of `kitews.py`: the `live_quotes` heap, the global
`kws` handle, stored credentials, and `always_subscribed_tokens`. -/
structure WsState where
  live_quotes : PyHeap
  kws : Option KwsInstance
  api_key_ws : Option String
  access_token_ws : Option String
  always_subscribed_tokens : Finset ℕ

/-- Build the record stored by `on_ticks` for a tick whose token is truthy. -/
def mkQuote (tok : ℕ) (t : RawTick) (now : ℚ) : Quote :=
  { instrument_token := tok
    last_price := t.last_price
    ohlc := t.ohlc
    volume := t.volume_traded
    oi := t.oi
    depth := t.depth
    timestamp := now }

/-- One iteration of the `for tick in ticks` loop of `on_ticks`: a tick whose
`instrument_token` is missing, `None`, or `0` (falsy) is skipped; otherwise
the dict entry at that token is replaced. -/
def upsert_tick (now : ℚ) (d : QuoteDict) (t : RawTick) : QuoteDict :=
  match t.instrument_token with
  | none => d
  | some tok =>
    if tok = 0 then d
    else fun k => if k = tok then some (mkQuote tok t now) else d k

/-- `on_ticks(ws, ticks)` (kitews.py lines 21-38): folds the upsert over the
batch, mutating in place the dict object `live_quotes` is bound to.  `now` is
the value of `time.time()` during the call. -/
def on_ticks (s : WsState) (now : ℚ) (ticks : List RawTick) : WsState :=
  let d := ticks.foldl (upsert_tick now) (readRef s.live_quotes s.live_quotes.cur)
  { s with live_quotes :=
      { s.live_quotes with objs := s.live_quotes.objs.set s.live_quotes.cur d } }

/-- `get_live_quote(instrument_token)` (lines 227-231): `live_quotes.get(tok)`. -/
def get_live_quote (s : WsState) (tok : ℕ) : Option Quote :=
  readRef s.live_quotes s.live_quotes.cur tok

/-- `get_all_live_quotes()` (lines 233-237): `return live_quotes` — returns the
dict object itself (its identity), not a copy. -/
def get_all_live_quotes (s : WsState) : ℕ :=
  s.live_quotes.cur

/-- `clear_live_quotes()` (lines 239-246): `live_quotes = {}` rebinds the
module-level name to a freshly allocated empty dict. -/
def clear_live_quotes (s : WsState) : WsState :=
  { s with live_quotes :=
      { objs := s.live_quotes.objs ++ [emptyDict], cur := s.live_quotes.objs.length } }

/-- `on_connect(ws, response)` (lines 41-51): invoked by the transport on a
successful handshake (so the instance is now connected); if
`always_subscribed_tokens` is non-empty, subscribe them and set full mode. -/
def on_connect (s : WsState) : WsState × List TransportOp :=
  match s.kws with
  | none => (s, [])
  | some k =>
    if s.always_subscribed_tokens = ∅ then
      ({ s with kws := some { k with connected := true } }, [])
    else
      let subs' := k.subscriptions ∪ s.always_subscribed_tokens
      let k' := { k with connected := true, subscriptions := subs' }
      ({ s with kws := some k' },
       [TransportOp.subscribe s.always_subscribed_tokens,
        TransportOp.set_mode_full s.always_subscribed_tokens])

/-- `subscribe_to_tokens(tokens)` (kitews.py lines 185-225), the subscription
reconciler.  The call sites pass `list(set(...))`, so the argument is a
`Finset`.  If the transport is connected: read its current subscriptions,
form `target = always_subscribed_tokens ∪ tokens`, unsubscribe
`current − target` (when non-empty), subscribe `target − current` and set full
mode for it (when non-empty); the transport's bookkeeping advances
accordingly.  Otherwise (no instance, or not connected): log a warning and
return — nothing is recorded. -/
def subscribe_to_tokens (s : WsState) (tokens : Finset ℕ) : WsState × List TransportOp :=
  match s.kws with
  | some k =>
    if k.connected then
      let current := k.subscriptions
      let all_tokens := s.always_subscribed_tokens ∪ tokens
      let to_unsub := current \ all_tokens
      let to_add := all_tokens \ current
      let unsub_ops := if to_unsub = ∅ then [] else [TransportOp.unsubscribe to_unsub]
      let add_ops :=
        if to_add = ∅ then []
        else [TransportOp.subscribe to_add, TransportOp.set_mode_full to_add]
      ({ s with kws := some { k with subscriptions := (current \ to_unsub) ∪ to_add } },
       unsub_ops ++ add_ops)
    else (s, [])
  | none => (s, [])

/-- `stop_websocket()` (kitews.py lines 168-183): if an instance exists it is
dropped (with a transport `stop()` call when connected) and
`always_subscribed_tokens` is cleared; `live_quotes` is not touched. -/
def stop_websocket (s : WsState) : WsState × List TransportOp :=
  match s.kws with
  | some k =>
    if k.connected then
      ({ s with kws := none, always_subscribed_tokens := ∅ },
       [TransportOp.stop_instance k.id])
    else
      ({ s with kws := none, always_subscribed_tokens := ∅ }, [])
  | none => (s, [])

/-- `start_websocket(api_k, access_t, initial_tokens)` (kitews.py lines
125-166): store the credentials; bail out if either is falsy; otherwise stop a
connected existing instance (or drop an unconnected one), allocate a fresh
`KiteTicker` (modelled by `fresh_id`, not yet connected, no subscriptions),
extend `always_subscribed_tokens` with `initial_tokens` when non-empty, and
start the connect thread. -/
def start_websocket (s : WsState) (api_k access_t : String)
    (initial_tokens : List ℕ) (fresh_id : ℕ) : WsState × List TransportOp :=
  let s0 := { s with api_key_ws := some api_k, access_token_ws := some access_t }
  if api_k = "" ∨ access_t = "" then (s0, [])
  else
    let step1 : WsState × List TransportOp :=
      match s0.kws with
      | some k =>
        if k.connected then (s0, [TransportOp.stop_instance k.id])
        else ({ s0 with kws := none }, [])
      | none => (s0, [])
    let s1 := step1.1
    let s2 := { s1 with
      kws := some { id := fresh_id, connected := false, subscriptions := (∅ : Finset ℕ) }
      always_subscribed_tokens :=
        if initial_tokens = [] then s1.always_subscribed_tokens
        else s1.always_subscribed_tokens ∪ initial_tokens.toFinset }
    (s2, step1.2 ++ [TransportOp.connect_attempt fresh_id])

/-!
ATM-window selection slice of `plot_option_chain` (kite1.py lines 897-972).
The retry loop polls `kitews.get_live_quote(underlying_token)` up to three
times; the cache is filled asynchronously, so the successive poll results are
a parameter (`polls`).  The one-shot REST fallback `kite.ltp(...)` is an
external collaborator, modelled by its result (`none` covers both an exception
and a missing key).  Strikes for the chosen (underlying, expiry) arrive as the
sorted list of unique strikes (`strikes = sorted(list(...unique()))`).
-/

/-- Python's built-in `round` on an exact value: round half to even. -/
def pyRound (q : ℚ) : ℤ :=
  let f := ⌊q⌋
  if q - f < 1 / 2 then f
  else if 1 / 2 < q - f then f + 1
  else if f % 2 = 0 then f else f + 1

/-- Python's `min(x :: xs, key=key)`: the first element attaining the minimal
key (a later element replaces the current best only when strictly smaller). -/
def py_min_by_key (key : ℚ → ℚ) (x : ℚ) : List ℚ → ℚ
  | [] => x
  | y :: ys => if key y < key x then py_min_by_key key y ys else py_min_by_key key x ys

/-- Lines 941-950: `atm_strike = round(ltp / strike_step) * strike_step`; if
`strikes.index(atm_strike)` raises (the value is not in the list), substitute
`min(strikes, key=lambda x: abs(x - current_ltp))`.  On an empty strike list
Python's `min` would raise; that case is unreachable (the caller has already
returned on `options_for_expiry.empty`), and the model returns 0 there. -/
def atm_strike_of (ltp strike_step : ℚ) (strikes : List ℚ) : ℚ :=
  let a : ℚ := (pyRound (ltp / strike_step) : ℚ) * strike_step
  if a ∈ strikes then a
  else
    match strikes with
    | [] => 0
    | x :: xs => py_min_by_key (fun s => |s - ltp|) x xs

/-- Lines 952-965 with the ATM index `i` already located: clamp the window
`[i - n, i + n + 1)` to the array bounds, pull the start back when the slice
is short, and finally (line 963) fall back to the first `2n+1` strikes when
the slice is still short and the full list is long enough.  Natural
subtraction coincides with Python's `max(0, ...)` here. -/
def window_slice (strikes : List ℚ) (i n : ℕ) : List ℚ :=
  let start0 := i - n
  let stop := min strikes.length (i + n + 1)
  let start := if stop - start0 < 2 * n + 1 then stop - (2 * n + 1) else start0
  let d := (strikes.drop start).take (stop - start)
  if d.length < 2 * n + 1 ∧ 2 * n + 1 ≤ strikes.length then strikes.take (2 * n + 1) else d

/-- Lines 941-965: the windowing logic for a resolved reference price. -/
def display_strikes_of (strikes : List ℚ) (ltp strike_step : ℚ) (n : ℕ) : List ℚ :=
  let atm := atm_strike_of ltp strike_step strikes
  window_slice strikes (strikes.indexOf atm) n

/-- The `for attempt in range(max_retries)` loop of lines 897-907: break on the
first poll returning a (truthy, hence non-empty) cached record — every stored
record has a `last_price` key, whose value may still be `None` — else end with
`current_ltp = None`.  Returns `some v` when the loop broke with
`current_ltp = v`, `none` when all polls missed. -/
def ws_ltp_after_retries : List (Option Quote) → Option (Option ℚ)
  | [] => none
  | none :: rest => ws_ltp_after_retries rest
  | some q :: _ => some q.last_price

/-- Lines 897-919: resolve the reference price — cache polls first, then, if
`current_ltp is None`, the REST fallback (`rest = none` when `kite.ltp` threw
or the expected key was missing). -/
def resolve_ltp (polls : List (Option Quote)) (rest : Option ℚ) : Option ℚ :=
  match ws_ltp_after_retries polls with
  | some (some v) => some v
  | some none => rest
  | none => rest

/-- Outcome of the option-chain callback, restricted to what lines 897-972
decide: the early return for an expiry with no options (line 930), the
defensive "No strikes to display" return (line 971), or a rendered window
carrying the strikes shown and the reference price used. -/
inductive ChainOutcome where
  | no_options_for_expiry
  | no_strikes_to_display
  | window (strikes : List ℚ) (ltp_used : Option ℚ)
deriving DecidableEq, Repr

/-- Lines 897-972 of `plot_option_chain`: resolve the reference price, bail
out when the expiry has no options, window when a price is available, and
fall back (line 968) to the first `min(len(strikes), 2n+1)` strikes when
`display_strikes` is still empty. -/
def plot_option_chain (polls : List (Option Quote)) (rest : Option ℚ)
    (strikes : List ℚ) (strike_step : ℚ) (num_otm : ℕ) : ChainOutcome :=
  let current_ltp := resolve_ltp polls rest
  if strikes = [] then ChainOutcome.no_options_for_expiry
  else
    let ds : List ℚ :=
      match current_ltp with
      | none => []
      | some ltp => display_strikes_of strikes ltp strike_step num_otm
    let ds :=
      if ds = [] ∧ strikes ≠ [] then strikes.take (min strikes.length (2 * num_otm + 1))
      else ds
    if ds = [] then ChainOutcome.no_strikes_to_display
    else ChainOutcome.window ds current_ltp

/-- A raw tick kept by `on_ticks`: `if instrument_token:` — the token is
present and non-zero. -/
def truthy_token (t : RawTick) : Bool :=
  match t.instrument_token with
  | some k => k != 0
  | none => false

/-- A sample stored record, for concrete scenarios. -/
def sampleQuote (tok : ℕ) (p : ℚ) : Quote :=
  { instrument_token := tok, last_price := some p, ohlc := none, volume := none,
    oi := none, depth := none, timestamp := 0 }

/-- A sample well-formed raw tick. -/
def sampleTick (tok : ℕ) (p : ℚ) : RawTick :=
  { instrument_token := some tok, last_price := some p, ohlc := none,
    volume_traded := none, oi := none, depth := none }

/-- A raw tick with a falsy (`0`) instrument token. -/
def zeroTokenTick : RawTick :=
  { instrument_token := some 0, last_price := some 1, ohlc := none,
    volume_traded := none, oi := none, depth := none }

/-- A fresh module state: `live_quotes = {}`, no `kws`, nothing subscribed. -/
def freshState : WsState :=
  { live_quotes := { objs := [emptyDict], cur := 0 }, kws := none,
    api_key_ws := none, access_token_ws := none,
    always_subscribed_tokens := ∅ }

/-- A state holding an unconnected `KiteTicker` instance and an empty
permanent set. -/
def disconnectedState : WsState :=
  { live_quotes := { objs := [emptyDict], cur := 0 },
    kws := some { id := 0, connected := false, subscriptions := ∅ },
    api_key_ws := some "k", access_token_ws := some "t",
    always_subscribed_tokens := ∅ }

/-- The dict of a session that has cached a tick for token 7. -/
def dict7 : QuoteDict :=
  fun k => if k = 7 then some (sampleQuote 7 100) else none

/-- A connected session: token 7 and NIFTY (256265) streamed, NIFTY permanent,
and a tick for token 7 already cached. -/
def connectedState : WsState :=
  { live_quotes := { objs := [dict7], cur := 0 },
    kws := some { id := 0, connected := true, subscriptions := {7, 256265} },
    api_key_ws := some "k", access_token_ws := some "t",
    always_subscribed_tokens := {256265} }

/-
Helper lemmas.
-/

/-- Applying the reconciler's unsubscribe/subscribe delta to the transport's
current set lands exactly on the target set. -/
theorem reconcile_sets (cur tgt : Finset ℕ) :
    (cur \ (cur \ tgt)) ∪ (tgt \ cur) = tgt := by
  ext x
  simp only [Finset.mem_union, Finset.mem_sdiff]
  tauto

/-- Variant of `reconcile_sets` in the `∩`-normal form produced by `simp`. -/
theorem reconcile_sets_inter (cur tgt : Finset ℕ) :
    (cur ∩ tgt) ∪ (tgt \ cur) = tgt := by
  ext x
  simp only [Finset.mem_union, Finset.mem_sdiff, Finset.mem_inter]
  tauto

theorem mem_of_getElem?_eq (l : List ℚ) (i : ℕ) (a : ℚ) (h : l[i]? = some a) : a ∈ l := by
  have hi : i < l.length := by
    by_contra hlt
    simp [List.getElem?_eq_none (by omega : l.length ≤ i)] at h
  rw [List.getElem?_eq_getElem hi] at h
  cases h
  exact List.getElem_mem hi

/-- An element of a list lying inside the slice `[s, s + t)` is a member of
`(l.drop s).take t`. -/
theorem mem_drop_take (l : List ℚ) (s t i : ℕ) (hi : i < l.length)
    (h1 : s ≤ i) (h2 : i < s + t) :
    l.get ⟨i, hi⟩ ∈ (l.drop s).take t := by
  apply mem_of_getElem?_eq _ (i - s)
  rw [List.getElem?_take, if_pos (by omega)]
  rw [List.getElem?_drop]
  have : s + (i - s) = i := by omega
  rw [this, List.getElem?_eq_getElem hi]
  rfl

theorem mem_take_of_lt (l : List ℚ) (t i : ℕ) (hi : i < l.length) (h : i < t) :
    l.get ⟨i, hi⟩ ∈ l.take t := by
  have := mem_drop_take l 0 t i hi (Nat.zero_le _) (by omega)
  simpa using this

/-
Claim C2.
-/

/-- C2 counterexample.  The claim says a reconcile performed while not
Connected records `target = permanent ∪ requestedTokens` as the desired state,
to be applied on the next successful connect.  On a disconnected state with an
empty permanent set, `subscribe_to_tokens {5}` leaves the module state
entirely unchanged (in particular `always_subscribed_tokens` stays `∅`, not
`{5}`), and the next `on_connect` issues no subscribe at all — the requested
token 5 is simply dropped. -/
theorem c2_counterexample :
    (subscribe_to_tokens disconnectedState {5}).1.always_subscribed_tokens = ∅ ∧
    (subscribe_to_tokens disconnectedState {5}).1.kws = disconnectedState.kws ∧
    (subscribe_to_tokens disconnectedState {5}).2 = [] ∧
    (on_connect (subscribe_to_tokens disconnectedState {5}).1).2 = [] ∧
    ({5} : Finset ℕ) ≠ ∅ := by
  refine ⟨rfl, rfl, rfl, rfl, by decide⟩

/-- C2 amended: if the connection is not Connected (no `kws` instance, or one
that is not connected), `subscribe_to_tokens` returns without issuing any
transport call and without recording anything — the module state is unchanged
and the requested tokens are dropped, not deferred. -/
theorem c2_not_connected_noop (s : WsState) (R : Finset ℕ)
    (h : ∀ k, s.kws = some k → k.connected = false) :
    subscribe_to_tokens s R = (s, []) := by
  match hk : s.kws with
  | none => simp [subscribe_to_tokens, hk]
  | some k => simp [subscribe_to_tokens, hk, h k hk]

/-- Witness for C2's amended theorem at a concrete disconnected state. -/
theorem c2_not_connected_noop_witness :
    subscribe_to_tokens disconnectedState {5} = (disconnectedState, []) := by
  apply c2_not_connected_noop
  intro k hk
  injection hk with h
  rw [← h]

/-
Claim C3.
-/

/-- C3: a reconcile performed while Connected lands the transport's
subscription set exactly on `permanent ∪ R`, hence the permanent set stays a
subset of the active set, and no permanent token is ever passed to the
transport's unsubscribe call. -/
theorem c3_reconcile_active_eq_target (s : WsState) (R : Finset ℕ)
    (k : KwsInstance) (hk : s.kws = some k) (hc : k.connected = true) :
    Option.map KwsInstance.subscriptions (subscribe_to_tokens s R).1.kws
      = some (s.always_subscribed_tokens ∪ R) ∧
    s.always_subscribed_tokens ⊆ s.always_subscribed_tokens ∪ R ∧
    ∀ u, TransportOp.unsubscribe u ∈ (subscribe_to_tokens s R).2 →
      Disjoint u s.always_subscribed_tokens := by
  refine ⟨?_, Finset.subset_union_left, ?_⟩
  · simp [subscribe_to_tokens, hk, hc, reconcile_sets, reconcile_sets_inter]
  · intro u hu
    have hu' : u = k.subscriptions \ (s.always_subscribed_tokens ∪ R) := by
      simp only [subscribe_to_tokens, hk, hc, if_true] at hu
      rcases List.mem_append.mp hu with h | h
      · by_cases hz : k.subscriptions \ (s.always_subscribed_tokens ∪ R) = ∅
        · simp [hz] at h
        · simp only [hz, if_neg, List.mem_singleton, ite_false] at h
          exact (TransportOp.unsubscribe.injEq _ _).mp h
      · by_cases hz : (s.always_subscribed_tokens ∪ R) \ k.subscriptions = ∅ <;>
          simp [hz] at h
    subst hu'
    rw [Finset.disjoint_left]
    intro a ha
    have := Finset.mem_sdiff.mp ha
    intro haa
    exact this.2 (Finset.mem_union_left _ haa)

/-- Witness for C3 at a concrete connected state (`connectedState` streams
{7, 256265} with permanent set {256265}) and request `R = {11}`. -/
theorem c3_reconcile_active_eq_target_witness :
    Option.map KwsInstance.subscriptions (subscribe_to_tokens connectedState {11}).1.kws
      = some (connectedState.always_subscribed_tokens ∪ {11}) ∧
    connectedState.always_subscribed_tokens
      ⊆ connectedState.always_subscribed_tokens ∪ {11} ∧
    ∀ u, TransportOp.unsubscribe u ∈ (subscribe_to_tokens connectedState {11}).2 →
      Disjoint u connectedState.always_subscribed_tokens :=
  c3_reconcile_active_eq_target connectedState {11}
    { id := 0, connected := true, subscriptions := {7, 256265} } rfl rfl

/-
Claim C4.
-/

/-- C4: reconciling twice in a row with the same requested set (permanent set
unchanged, active state advanced by the first call) issues zero transport
operations on the second call — both deltas are empty. -/
theorem c4_reconcile_idempotent (s : WsState) (R : Finset ℕ)
    (k : KwsInstance) (hk : s.kws = some k) (hc : k.connected = true) :
    (subscribe_to_tokens (subscribe_to_tokens s R).1 R).2 = [] := by
  simp [subscribe_to_tokens, hk, hc, reconcile_sets, reconcile_sets_inter]

/-- Witness for C4 at `connectedState` with request `{11}`. -/
theorem c4_reconcile_idempotent_witness :
    (subscribe_to_tokens (subscribe_to_tokens connectedState {11}).1 {11}).2 = [] :=
  c4_reconcile_idempotent connectedState {11}
    { id := 0, connected := true, subscriptions := {7, 256265} } rfl rfl

/-
Claim C6.
-/

/-- C6 counterexample.  The claim says that after `stop_websocket()` the quote
cache has been cleared and `get(token)` is absent even for a token cached just
before.  On `connectedState`, token 7 is cached before the stop — and is still
returned afterwards: `stop_websocket` never touches `live_quotes`
(`clear_live_quotes` is a separate function, invoked separately by the logout
paths of kite1.py). -/
theorem c6_counterexample :
    get_live_quote connectedState 7 = some (sampleQuote 7 100) ∧
    get_live_quote (stop_websocket connectedState).1 7 = some (sampleQuote 7 100) ∧
    some (sampleQuote 7 100) ≠ (none : Option Quote) := by
  refine ⟨rfl, rfl, by simp⟩

/-- C6 amended: when a transport instance exists, `stop_websocket` empties the
permanent subscription set and drops the instance, but leaves the quote cache
untouched: every `get_live_quote` result is exactly what it was before the
stop. -/
theorem c6_stop_clears_permanent_not_cache (s : WsState) (k : KwsInstance)
    (hk : s.kws = some k) :
    (stop_websocket s).1.always_subscribed_tokens = ∅ ∧
    (stop_websocket s).1.kws = none ∧
    (stop_websocket s).1.live_quotes = s.live_quotes ∧
    ∀ t, get_live_quote (stop_websocket s).1 t = get_live_quote s t := by
  cases hck : k.connected <;>
    simp [stop_websocket, hk, hck, get_live_quote]

/-- Witness for C6's amended theorem at `connectedState`, read back at
token 7. -/
theorem c6_stop_clears_permanent_not_cache_witness :
    (stop_websocket connectedState).1.always_subscribed_tokens = ∅ ∧
    get_live_quote (stop_websocket connectedState).1 7
      = get_live_quote connectedState 7 := by
  have h := c6_stop_clears_permanent_not_cache connectedState
    { id := 0, connected := true, subscriptions := {7, 256265} } rfl
  exact ⟨h.1, h.2.2.2 7⟩

/-
Claim C7.
-/

/-- C7 counterexample.  The claim says `start_websocket` while already
Connected is a no-op that keeps the running transport instance.  Starting on
`connectedState` (instance id 0, connected, subscribed to {7, 256265}) with
valid credentials instead issues a `stop()` on the running instance and
replaces it by a fresh unconnected instance with empty subscription state. -/
theorem c7_counterexample :
    (start_websocket connectedState "k2" "t2" [] 1).1.kws
      = some { id := 1, connected := false, subscriptions := ∅ } ∧
    (start_websocket connectedState "k2" "t2" [] 1).1.kws ≠ connectedState.kws ∧
    (start_websocket connectedState "k2" "t2" [] 1).2
      = [TransportOp.stop_instance 0, TransportOp.connect_attempt 1] := by
  refine ⟨rfl, by decide, rfl⟩

/-- C7 amended: with non-empty credentials, calling `start_websocket` while an
instance is connected is not idempotent: it stops the running instance,
replaces the handle by a fresh unconnected `KiteTicker` with empty
subscription state, and spawns a new connect attempt.  (Only the permanent set
survives, extended by `initial_tokens`.) -/
theorem c7_start_replaces_connected_instance (s : WsState) (k : KwsInstance)
    (api_k access_t : String) (init : List ℕ) (fresh : ℕ)
    (hk : s.kws = some k) (hc : k.connected = true)
    (ha : api_k ≠ "") (ht : access_t ≠ "") :
    (start_websocket s api_k access_t init fresh).1.kws
      = some { id := fresh, connected := false, subscriptions := ∅ } ∧
    (start_websocket s api_k access_t init fresh).2
      = [TransportOp.stop_instance k.id, TransportOp.connect_attempt fresh] ∧
    (start_websocket s api_k access_t init fresh).1.kws ≠ s.kws ∧
    (start_websocket s api_k access_t init fresh).1.always_subscribed_tokens
      = (if init = [] then s.always_subscribed_tokens
         else s.always_subscribed_tokens ∪ init.toFinset) := by
  refine ⟨?_, ?_, ?_, ?_⟩
  · simp [start_websocket, hk, hc, ha, ht]
  · simp [start_websocket, hk, hc, ha, ht]
  · simp only [start_websocket, hk, hc, ha, ht, or_self, if_false, ite_false,
      if_true, ite_true, ne_eq]
    intro hcontra
    injection hcontra with h
    rw [← h] at hc
    simp at hc
  · simp [start_websocket, hk, hc, ha, ht]

/-- Witness for C7's amended theorem on `connectedState`. -/
theorem c7_start_replaces_connected_instance_witness :
    (start_websocket connectedState "k2" "t2" [] 1).1.kws
      = some { id := 1, connected := false, subscriptions := ∅ } ∧
    (start_websocket connectedState "k2" "t2" [] 1).1.kws ≠ connectedState.kws :=
  have h := c7_start_replaces_connected_instance connectedState
    { id := 0, connected := true, subscriptions := {7, 256265} }
    "k2" "t2" [] 1 rfl rfl (by decide) (by decide)
  ⟨h.1, h.2.2.1⟩

/-
Claim C5.
-/

/-- C5 counterexample.  The claim says `get_all_live_quotes` returns a
point-in-time copy, unchanged by later upserts.  Take the snapshot of the
fresh (empty) cache, then deliver one tick for token 1: the mapping the
snapshot refers to now contains the new entry — `get_all_live_quotes` returned
the live dict, not a copy. -/
theorem c5_counterexample :
    readRef freshState.live_quotes (get_all_live_quotes freshState) 1 = none ∧
    readRef (on_ticks freshState 0 [sampleTick 1 5]).live_quotes
        (get_all_live_quotes freshState) 1
      = some (mkQuote 1 (sampleTick 1 5) 0) ∧
    some (mkQuote 1 (sampleTick 1 5) 0) ≠ (none : Option Quote) := by
  refine ⟨rfl, rfl, by simp⟩

/-- C5 amended: `get_all_live_quotes` returns the cache dict itself (a live
view): the object it denotes is untouched by `on_ticks` rebinding — and after
any batch of upserts, dereferencing the previously returned mapping shows
exactly the upserted contents. -/
theorem c5_snapshot_is_live_view (s : WsState) (now : ℚ) (ticks : List RawTick)
    (h : s.live_quotes.cur < s.live_quotes.objs.length) :
    get_all_live_quotes (on_ticks s now ticks) = get_all_live_quotes s ∧
    readRef (on_ticks s now ticks).live_quotes (get_all_live_quotes s)
      = ticks.foldl (upsert_tick now)
          (readRef s.live_quotes (get_all_live_quotes s)) := by
  refine ⟨rfl, ?_⟩
  unfold on_ticks readRef get_all_live_quotes
  simp only []
  rw [List.getD_eq_getElem?_getD, List.getElem?_set_self h]
  rfl

/-- Witness for C5's amended theorem on the fresh state with one tick. -/
theorem c5_snapshot_is_live_view_witness :
    readRef (on_ticks freshState 0 [sampleTick 1 5]).live_quotes
        (get_all_live_quotes freshState)
      = [sampleTick 1 5].foldl (upsert_tick 0)
          (readRef freshState.live_quotes (get_all_live_quotes freshState)) :=
  (c5_snapshot_is_live_view freshState 0 [sampleTick 1 5] (by decide)).2

/-
Claim C10.
-/

theorem upsert_tick_not_truthy (now : ℚ) (d : QuoteDict) (t : RawTick)
    (h : truthy_token t = false) : upsert_tick now d t = d := by
  cases ht : t.instrument_token with
  | none => simp [upsert_tick, ht]
  | some k =>
    simp only [truthy_token, ht, bne_eq_false_iff_eq] at h
    simp [upsert_tick, ht, h]

theorem upsert_tick_inv (now : ℚ) (d : QuoteDict) (t : RawTick)
    (hinv : ∀ k q, d k = some q → q.instrument_token = k ∧ k ≠ 0) :
    ∀ k q, upsert_tick now d t k = some q → q.instrument_token = k ∧ k ≠ 0 := by
  intro k q h
  cases ht : t.instrument_token with
  | none =>
    simp only [upsert_tick, ht] at h
    exact hinv k q h
  | some tok =>
    simp only [upsert_tick, ht] at h
    by_cases h0 : tok = 0
    · rw [if_pos h0] at h
      exact hinv k q h
    · rw [if_neg h0] at h
      by_cases hkt : k = tok
      · rw [if_pos hkt] at h
        injection h with hq
        subst hq
        exact ⟨hkt.symm, hkt ▸ h0⟩
      · rw [if_neg hkt] at h
        exact hinv k q h

theorem foldl_upsert_inv (now : ℚ) (ticks : List RawTick) :
    ∀ d : QuoteDict, (∀ k q, d k = some q → q.instrument_token = k ∧ k ≠ 0) →
      ∀ k q, (ticks.foldl (upsert_tick now) d) k = some q →
        q.instrument_token = k ∧ k ≠ 0 := by
  induction ticks with
  | nil => intro d hd; simpa using hd
  | cons t ts ih =>
    intro d hd
    simp only [List.foldl_cons]
    exact ih _ (upsert_tick_inv now d t hd)

theorem foldl_upsert_filter (now : ℚ) (ticks : List RawTick) :
    ∀ d : QuoteDict, (ticks.filter truthy_token).foldl (upsert_tick now) d
      = ticks.foldl (upsert_tick now) d := by
  induction ticks with
  | nil => intro d; rfl
  | cons t ts ih =>
    intro d
    cases hT : truthy_token t
    · simp only [List.filter_cons, hT, Bool.false_eq_true, if_false,
        List.foldl_cons, upsert_tick_not_truthy now d t hT]
      exact ih d
    · simp only [List.filter_cons, hT, if_true, List.foldl_cons]
      exact ih _

/-- C10: a tick whose `instrument_token` is missing, `None`, or `0` is
silently discarded — delivering a batch updates the cache exactly as the
sub-batch of truthy-token ticks would — and the key/value invariant is
preserved: whenever every cached entry sits under its own non-zero
`instrument_token`, the same holds after any `on_ticks` batch. -/
theorem c10_tick_key_invariant (s : WsState) (now : ℚ) (ticks : List RawTick) :
    on_ticks s now (ticks.filter truthy_token) = on_ticks s now ticks ∧
    ((∀ k q, get_live_quote s k = some q → q.instrument_token = k ∧ k ≠ 0) →
      ∀ k q, get_live_quote (on_ticks s now ticks) k = some q →
        q.instrument_token = k ∧ k ≠ 0) := by
  constructor
  · simp only [on_ticks, foldl_upsert_filter]
  · intro hinv k q h
    simp only [get_live_quote, on_ticks, readRef] at h
    by_cases hcur : s.live_quotes.cur < s.live_quotes.objs.length
    · rw [List.getD_eq_getElem?_getD, List.getElem?_set_self hcur] at h
      exact foldl_upsert_inv now ticks _ hinv k q h
    · rw [List.getD_eq_getElem?_getD,
        List.getElem?_eq_none (by simpa using Nat.le_of_not_lt hcur)] at h
      simp [emptyDict] at h

/-- Witness for C10 on the fresh state with one good tick and one
zero-token tick. -/
theorem c10_tick_key_invariant_witness :
    on_ticks freshState 0 ([sampleTick 1 5, zeroTokenTick].filter truthy_token)
        = on_ticks freshState 0 [sampleTick 1 5, zeroTokenTick] ∧
    ((mkQuote 1 (sampleTick 1 5) 0).instrument_token = 1 ∧ (1 : ℕ) ≠ 0) := by
  have h := c10_tick_key_invariant freshState 0 [sampleTick 1 5, zeroTokenTick]
  refine ⟨h.1, h.2 ?_ 1 (mkQuote 1 (sampleTick 1 5) 0) rfl⟩
  intro k q hq
  simp [get_live_quote, freshState, readRef, emptyDict] at hq

/-
Windowing helper lemmas.
-/

theorem window_slice_length (strikes : List ℚ) (i n : ℕ) (hi : i < strikes.length) :
    (window_slice strikes i n).length =
      if 2 * n + 1 ≤ strikes.length ∨ strikes.length ≤ i + n + 1
      then min (2 * n + 1) strikes.length else i + n + 1 := by
  simp only [window_slice]
  split_ifs <;> simp only [List.length_take, List.length_drop] at * <;> omega

theorem window_slice_mem (strikes : List ℚ) (i n : ℕ) (hi : i < strikes.length) :
    strikes.get ⟨i, hi⟩ ∈ window_slice strikes i n := by
  simp only [window_slice]
  split_ifs <;>
    simp only [List.length_take, List.length_drop] at * <;>
    first
      | exact mem_take_of_lt _ _ _ hi (by omega)
      | exact mem_drop_take _ _ _ _ hi (by omega) (by omega)

theorem py_min_by_key_mem (key : ℚ → ℚ) :
    ∀ (xs : List ℚ) (x : ℚ), py_min_by_key key x xs ∈ x :: xs
  | [], x => by simp [py_min_by_key]
  | y :: ys, x => by
      rw [py_min_by_key]
      split_ifs with hlt
      · have := py_min_by_key_mem key ys y
        simp only [List.mem_cons] at this ⊢
        tauto
      · have := py_min_by_key_mem key ys x
        simp only [List.mem_cons] at this ⊢
        tauto

theorem py_min_by_key_le (key : ℚ → ℚ) :
    ∀ (xs : List ℚ) (x z : ℚ), z ∈ x :: xs → key (py_min_by_key key x xs) ≤ key z
  | [], x, z, hz => by
      have hzx : z = x := by simpa using hz
      subst hzx
      simp [py_min_by_key]
  | y :: ys, x, z, hz => by
      rw [py_min_by_key]
      rcases List.mem_cons.mp hz with h1 | h2
      · split_ifs with hlt
        · calc key (py_min_by_key key y ys) ≤ key y := py_min_by_key_le key ys y y (by simp)
            _ ≤ key x := hlt.le
            _ = key z := by rw [h1]
        · exact py_min_by_key_le key ys x z (by simp [h1])
      · split_ifs with hlt
        · exact py_min_by_key_le key ys y z h2
        · rcases List.mem_cons.mp h2 with hzy | hzys
          · calc key (py_min_by_key key x ys) ≤ key x := py_min_by_key_le key ys x x (by simp)
              _ ≤ key y := le_of_not_lt hlt
              _ = key z := by rw [hzy]
          · exact py_min_by_key_le key ys x z (by simp [hzys])

theorem atm_strike_mem (ltp step : ℚ) (strikes : List ℚ) (h : strikes ≠ []) :
    atm_strike_of ltp step strikes ∈ strikes := by
  simp only [atm_strike_of]
  split_ifs with hmem
  · exact hmem
  · match strikes, h with
    | x :: xs, _ => exact py_min_by_key_mem _ xs x

theorem atm_strike_min_dist (ltp step : ℚ) (strikes : List ℚ)
    (h : ((pyRound (ltp / step) : ℚ) * step) ∉ strikes) :
    ∀ z ∈ strikes, |atm_strike_of ltp step strikes - ltp| ≤ |z - ltp| := by
  simp only [atm_strike_of]
  rw [if_neg h]
  match strikes with
  | [] => intro z hz; simp at hz
  | x :: xs => exact fun z hz => py_min_by_key_le (fun s => |s - ltp|) xs x z hz

theorem ws_ltp_all_none :
    ∀ (polls : List (Option Quote)), (∀ p ∈ polls, p = none) →
      ws_ltp_after_retries polls = none
  | [], _ => rfl
  | p :: ps, h => by
      have hp := h p (by simp)
      subst hp
      show ws_ltp_after_retries ps = none
      exact ws_ltp_all_none ps (fun q hq => h q (by simp [hq]))

/-
Claim C8.
-/

/-- C8: the window selector anchors on
`atm_strike = round(price / strike_step) * strike_step` (Python's `round`:
half-to-even); when that value is not among the known strikes it substitutes a
known strike of minimum absolute distance to the price; and price 24853 with
step 50 yields anchor 24850. -/
theorem c8_atm_anchor (ltp step : ℚ) (strikes : List ℚ)
    (hltp : 0 < ltp) (hstep : 0 < step) (hne : strikes ≠ []) :
    (((pyRound (ltp / step) : ℚ) * step ∈ strikes) →
        atm_strike_of ltp step strikes = (pyRound (ltp / step) : ℚ) * step) ∧
    (((pyRound (ltp / step) : ℚ) * step ∉ strikes) →
        atm_strike_of ltp step strikes ∈ strikes ∧
        ∀ z ∈ strikes, |atm_strike_of ltp step strikes - ltp| ≤ |z - ltp|) ∧
    (pyRound ((24853 : ℚ) / 50) : ℚ) * 50 = 24850 := by
  have hfl : ⌊(24853 : ℚ) / 50⌋ = 497 := by norm_num
  refine ⟨?_, ?_, by norm_num [pyRound, hfl]⟩
  · intro hmem
    simp [atm_strike_of, hmem]
  · intro hmem
    exact ⟨atm_strike_mem ltp step strikes hne, atm_strike_min_dist ltp step strikes hmem⟩

/-- Witness for C8: the NIFTY example — price 24853, step 50, strikes around
24850 — anchors on the rounded strike 24850, which is in the list. -/
theorem c8_atm_anchor_witness :
    atm_strike_of 24853 50 [24750, 24800, 24850, 24900, 24950]
      = (pyRound ((24853 : ℚ) / 50) : ℚ) * 50 := by
  have hfl : ⌊(24853 : ℚ) / 50⌋ = 497 := by norm_num
  have hval : (pyRound ((24853 : ℚ) / 50) : ℚ) * 50 = 24850 := by norm_num [pyRound, hfl]
  exact (c8_atm_anchor 24853 50 [24750, 24800, 24850, 24900, 24950]
    (by norm_num) (by norm_num) (by simp)).1 (by rw [hval]; simp)

/-
Claim C9.
-/

/-- C9 counterexample.  The claim says the window always contains exactly
`min(2n+1, N)` strikes.  With six strikes, reference price 150 (ATM index 1)
and `otmCount = 3`, the code returns only 5 strikes ([100..300]) although
`min(7, 6) = 6`: the left-clamped slice is not widened to the right because
the line-963 fix requires the full list to hold at least `2n+1` strikes. -/
theorem c9_counterexample :
    (display_strikes_of [100, 150, 200, 250, 300, 350] 150 50 3).length = 5 ∧
    min (2 * 3 + 1) ([100, 150, 200, 250, 300, 350] : List ℚ).length = 6 := by
  have hfl : ⌊(150 : ℚ) / 50⌋ = 3 := by norm_num
  have hval : (pyRound ((150 : ℚ) / 50) : ℚ) * 50 = 150 := by norm_num [pyRound, hfl]
  have hatm : atm_strike_of 150 50 [100, 150, 200, 250, 300, 350] = 150 := by
    simp only [atm_strike_of]
    rw [hval]
    rw [if_pos (by simp)]
  constructor
  · simp only [display_strikes_of, hatm]
    rfl
  · rfl

/-- C9 amended: the window always contains the ATM strike; its size is
`min(2n+1, N)` whenever `N ≥ 2n+1` or the ATM index `i` satisfies
`N ≤ i+n+1`, but in the remaining corner (`i+n+1 < N < 2n+1`) the code
returns only the first `i+n+1` strikes; in particular `n = 0` yields exactly
one strike and `N ≥ 2n+1` yields exactly `2n+1` strikes (so 11 strikes for
`n = 5` over 20 strikes). -/
theorem c9_window_characterization (strikes : List ℚ) (ltp step : ℚ) (n : ℕ)
    (hne : strikes ≠ []) :
    atm_strike_of ltp step strikes ∈ display_strikes_of strikes ltp step n ∧
    (display_strikes_of strikes ltp step n).length =
      (if 2 * n + 1 ≤ strikes.length ∨
          strikes.length ≤ strikes.indexOf (atm_strike_of ltp step strikes) + n + 1
       then min (2 * n + 1) strikes.length
       else strikes.indexOf (atm_strike_of ltp step strikes) + n + 1) ∧
    (2 * n + 1 ≤ strikes.length →
      (display_strikes_of strikes ltp step n).length = 2 * n + 1) := by
  have hmem := atm_strike_mem ltp step strikes hne
  have hi : strikes.indexOf (atm_strike_of ltp step strikes) < strikes.length :=
    List.indexOf_lt_length.mpr hmem
  have hlen := window_slice_length strikes _ n hi
  refine ⟨?_, ?_, ?_⟩
  · have hm := window_slice_mem strikes _ n hi
    rw [List.indexOf_get hi] at hm
    simpa [display_strikes_of] using hm
  · simpa [display_strikes_of] using hlen
  · intro hw
    simp only [display_strikes_of]
    rw [hlen, if_pos (Or.inl hw)]
    omega

/-- Witness for C9: 20 strikes (100..2000 step 100), price 550, `n = 5` — the
window has exactly 11 strikes. -/
theorem c9_window_characterization_witness :
    (display_strikes_of
        [100, 200, 300, 400, 500, 600, 700, 800, 900, 1000, 1100, 1200, 1300,
         1400, 1500, 1600, 1700, 1800, 1900, 2000] 550 100 5).length
      = 2 * 5 + 1 :=
  (c9_window_characterization
      [100, 200, 300, 400, 500, 600, 700, 800, 900, 1000, 1100, 1200, 1300,
       1400, 1500, 1600, 1700, 1800, 1900, 2000] 550 100 5 (by simp)).2.2
    (by simp)

/-
Claim C1.
-/

/-- C1 counterexample.  The claim says that when the cache misses after the
bounded retries and the REST fallback also fails, the operation reports a
"no reference price" outcome and returns no strikes.  With three missed polls,
a failed REST call and two known strikes, the code instead renders a window
with both strikes (line 968's fallback) and never emits any "no reference
price" message. -/
theorem c1_counterexample :
    plot_option_chain [none, none, none] none [100, 150] 50 2
      = ChainOutcome.window [100, 150] none ∧
    ([100, 150] : List ℚ) ≠ [] := by
  constructor
  · rfl
  · simp

/-- C1 amended: when the underlying has no cache entry on any retry and the
REST fallback fails too, `plot_option_chain` does not throw — but instead of
reporting "no reference price" it falls back to rendering the first
`min(N, 2n+1)` strikes of the expiry (with the reference price recorded as
absent). -/
theorem c1_no_reference_price_fallback (polls : List (Option Quote))
    (strikes : List ℚ) (strike_step : ℚ) (n : ℕ)
    (hpolls : ∀ p ∈ polls, p = none) (hne : strikes ≠ []) :
    plot_option_chain polls none strikes strike_step n
      = ChainOutcome.window (strikes.take (min strikes.length (2 * n + 1))) none := by
  have hres : resolve_ltp polls none = none := by
    unfold resolve_ltp
    rw [ws_ltp_all_none polls hpolls]
  have hl : 0 < strikes.length := List.length_pos.mpr hne
  have htake : strikes.take (min strikes.length (2 * n + 1)) ≠ [] := by
    rw [Ne, List.take_eq_nil_iff]
    push_neg
    exact ⟨by omega, hne⟩
  simp [plot_option_chain, hres, hne, htake]

/-- Witness for C1's amended theorem: three missed polls, failed REST, three
strikes, `n = 1`. -/
theorem c1_no_reference_price_fallback_witness :
    plot_option_chain [none, none, none] none [100, 150, 200] 50 1
      = ChainOutcome.window
          (([100, 150, 200] : List ℚ).take
            (min ([100, 150, 200] : List ℚ).length (2 * 1 + 1))) none :=
  c1_no_reference_price_fallback [none, none, none] [100, 150, 200] 50 1
    (by simp) (by simp)

end Kite
